import Mathlib

/-!
A shallow embedding of the message-interpretation engine of `src/app.py`
(WhatsApp expense tracker).  The amount extractor's five regular-expression
rules are embedded as hand-written leftmost-match scanners, the category
classifier as an ordered keyword search, and the webhook handler as a pure
function from a registry state, message body and sender id to a
`ConversationResult` together with the possibly-updated registry.
-/

namespace ExpenseApp

/-- Python `str.lower` restricted to the ASCII range; all other characters
(such as the rupee sign) are unchanged, as in CPython for this character set. -/
def lowerChar (c : Char) : Char :=
  if 'A' ≤ c ∧ c ≤ 'Z' then Char.ofNat (c.toNat + 32) else c

def lowerList (l : List Char) : List Char := l.map lowerChar

/-- The whitespace characters of Python `str.strip`, `str.split` and the regex
class `\s` (ASCII range). -/
def isPySpace (c : Char) : Bool :=
  c = ' ' || c = '\t' || c = '\n' || c = '\r' || c = Char.ofNat 11 || c = Char.ofNat 12

/-- Python `str.strip()` on a character list. -/
def pyStripList (l : List Char) : List Char :=
  ((l.dropWhile isPySpace).reverse.dropWhile isPySpace).reverse

/-- Python `str.strip()`. -/
def pyStrip (s : String) : String := String.mk (pyStripList s.toList)

/-- Whether `pre` is a prefix of the first list argument's structure: the first
argument is the haystack, the second the candidate prefix. -/
def listStartsWith : List Char → List Char → Bool
  | _, [] => true
  | [], _ :: _ => false
  | a :: as, b :: bs => a = b && listStartsWith as bs

/-- Python substring containment `needle in hay`. -/
def containsSub (needle : List Char) : List Char → Bool
  | [] => listStartsWith [] needle
  | c :: t => listStartsWith (c :: t) needle || containsSub needle t

/-- The regex word-character class `\w` over the character set the program
handles (ASCII alphanumerics and underscore; the rupee sign is not a word
character). -/
def isWordCh (c : Char) : Bool := c.isAlphanum || c = '_'

def isWordOpt : Option Char → Bool
  | none => false
  | some c => isWordCh c

/-- The character class `[\d,]` of the extractor's numeric grammar. -/
def isDC (c : Char) : Bool := c.isDigit || c = ','

/-- The capture of one numeric grammar match: the `[\d,]+` part and the two
digits of an optional `\.\d{2}` fraction. -/
structure NumGroup where
  intPart : List Char
  frac : Option (Char × Char)
deriving DecidableEq, Repr

def digitsToNat (l : List Char) : Nat :=
  l.foldl (fun n c => 10 * n + (c.toNat - 48)) 0

/-- Python `float(group.replace(',', ''))` on a captured group: fails exactly
when nothing but commas was captured; a bare fraction such as ".50" parses. -/
def floatOfGroup (g : NumGroup) : Option ℚ :=
  match g.intPart.filter (fun c => c ≠ ','), g.frac with
  | [], none => none
  | l, none => some (digitsToNat l)
  | l, some (a, b) =>
      some ((digitsToNat l : ℚ) + (((a.toNat - 48) * 10 + (b.toNat - 48) : ℕ) : ℚ) / 100)

/-- Match `[\d,]+(?:\.\d{2})?` at the head of `s`: the maximal digit-or-comma
run, then a fraction exactly when a period and two digits follow.  Returns the
capture and the rest of the input. -/
def grabNum (s : List Char) : Option (NumGroup × List Char) :=
  let ds := s.takeWhile isDC
  let r := s.dropWhile isDC
  if ds.isEmpty then none
  else
    match r with
    | '.' :: a :: b :: r2 =>
        if a.isDigit && b.isDigit then some (⟨ds, some (a, b)⟩, r2)
        else some (⟨ds, none⟩, r)
    | _ => some (⟨ds, none⟩, r)

/-- Rule 1, `₹\s*([\d,]+(?:\.\d{2})?)`, tried at one position. -/
def stepSym : Option Char → List Char → Option NumGroup
  | _, '₹' :: t => (grabNum (t.dropWhile isPySpace)).map (·.1)
  | _, _ => none

/-- Rule 2, `rs\.?\s*([\d,]+(?:\.\d{2})?)`, tried at one position.  No word
boundary: the letters may sit inside a longer word. -/
def stepRs : Option Char → List Char → Option NumGroup
  | _, 'r' :: 's' :: t =>
      let t1 := match t with
        | '.' :: u => u
        | _ => t
      (grabNum (t1.dropWhile isPySpace)).map (·.1)
  | _, _ => none

/-- Rule 3, `inr\s*([\d,]+(?:\.\d{2})?)`, tried at one position. -/
def stepInr : Option Char → List Char → Option NumGroup
  | _, 'i' :: 'n' :: 'r' :: t => (grabNum (t.dropWhile isPySpace)).map (·.1)
  | _, _ => none

/-- Rule 4, `([\d,]+(?:\.\d{2})?)\s*(?:rs|rupees|inr|₹)`, tried at one
position. -/
def stepSuffix : Option Char → List Char → Option NumGroup
  | _, s =>
      match grabNum s with
      | none => none
      | some (g, r) =>
          let r2 := r.dropWhile isPySpace
          if listStartsWith r2 ['r', 's'] || listStartsWith r2 ['r', 'u', 'p', 'e', 'e', 's'] ||
              listStartsWith r2 ['i', 'n', 'r'] || listStartsWith r2 ['₹'] then some g
          else none

/-- Backtracking for the trailing `\b` of rule 5: given the reversed
digit-or-comma run and the character following it, drop characters from the
right until a word boundary holds; returns the reversed kept part. -/
def cutRev : List Char → Option Char → Option (List Char)
  | [], _ => none
  | c :: rest, nx => if isWordCh c != isWordOpt nx then some (c :: rest) else cutRev rest (some c)

/-- Rule 5, `\b([\d,]+)\b`, tried at one position; `prev` is the character
before the position (none at the start of the text). -/
def stepBare : Option Char → List Char → Option NumGroup
  | prev, s =>
      match s with
      | [] => none
      | c :: _ =>
          if isDC c && (isWordOpt prev != isWordCh c) then
            match cutRev (s.takeWhile isDC).reverse ((s.dropWhile isDC).head?) with
            | some revCut => some ⟨revCut.reverse, none⟩
            | none => none
          else none

/-- `re.search`: try the rule at every position, leftmost first, threading the
previous character for word boundaries. -/
def searchG (step : Option Char → List Char → Option NumGroup) :
    Option Char → List Char → Option NumGroup
  | prev, [] => step prev []
  | prev, c :: rest =>
      match step prev (c :: rest) with
      | some g => some g
      | none => searchG step (some c) rest

def searchLC (step : Option Char → List Char → Option NumGroup) (l : List Char) : Option NumGroup :=
  searchG step none l

/-- The `for p in patterns: ... try: return float(...) except: continue` loop of
`extract_amount`: the first rule that matches somewhere is taken; if its group
fails numeric conversion the rule is skipped entirely. -/
def tryPatterns : List (Option NumGroup) → Option ℚ
  | [] => none
  | none :: rest => tryPatterns rest
  | some g :: rest =>
      match floatOfGroup g with
      | some v => some v
      | none => tryPatterns rest

/-- `extract_amount` of `src/app.py`: lowercase the message, then apply the five
ordered rules. -/
def extract_amount (msg : String) : Option ℚ :=
  tryPatterns [searchLC stepSym (lowerList msg.toList), searchLC stepRs (lowerList msg.toList),
    searchLC stepInr (lowerList msg.toList), searchLC stepSuffix (lowerList msg.toList),
    searchLC stepBare (lowerList msg.toList)]

/-- The currency-marked portion of the extractor: rules 1-4 only, with the same
conversion-failure skipping. -/
def currencyExtract (msg : String) : Option ℚ :=
  tryPatterns [searchLC stepSym (lowerList msg.toList), searchLC stepRs (lowerList msg.toList),
    searchLC stepInr (lowerList msg.toList), searchLC stepSuffix (lowerList msg.toList)]

/-- The ordered category table of `src/app.py` (insertion order of the Python
dict). -/
def CATEGORIES : List (String × List String) := [
  ("rent", ["rent", "rental", "office rent", "shop rent", "lease"]),
  ("travel", ["travel", "auto", "cab", "uber", "ola", "fuel", "petrol", "diesel", "ticket",
    "train", "bus", "flight", "metro"]),
  ("food", ["food", "lunch", "dinner", "breakfast", "tea", "coffee", "snacks", "meal",
    "restaurant", "hotel", "eating", "tiffin"]),
  ("partner_loan", ["loan", "lent", "lending", "borrowed", "gave to company", "lent to company",
    "partner loan", "personal money"]),
  ("business_purchase", ["stock", "inventory", "purchase", "bought", "product", "goods",
    "material", "supplies", "wholesale"]),
  ("client_acquisition", ["client", "customer", "acquisition", "gift", "meeting", "commission",
    "marketing", "promotion", "business development"])]

/-- `detect_category` of `src/app.py`: lowercase the message, return the first
category in table order one of whose keywords occurs as a substring. -/
def detect_category (msg : String) : String :=
  match CATEGORIES.find? (fun p => p.2.any (fun kw => containsSub kw.toList (lowerList msg.toList))) with
  | some p => p.1
  | none => "uncategorized"

/-- The classifier as worded by the spec (section 4.2): the first category in
the fixed priority order whose keyword set has a case-insensitive substring
match in the text; "uncategorized" when none matches.  Kept separate from
`detect_category` so the two can be compared. -/
def classifySpec (msg : String) : String :=
  match CATEGORIES.find?
      (fun p => p.2.any (fun kw => containsSub (lowerList kw.toList) (lowerList msg.toList))) with
  | some p => p.1
  | none => "uncategorized"

/-- The engine's result variants (spec section 3, `ConversationResult`). -/
inductive ConversationResult
  | registration (success : Bool) (name : String)
  | unregistered
  | parseError
  | expense (amount : ℚ) (category : String) (description : String) (partnerName : String)
deriving DecidableEq, Repr

/-- The partner registry as the engine sees it: lookup from sender id to
display name (`get_partner`). -/
abbrev Registry := String → Option String

/-- `register_partner`'s `INSERT OR REPLACE` upsert. -/
def upsert (reg : Registry) (phone name : String) : Registry :=
  fun p => if p = phone then some name else reg p

/-- Python `msg.split(maxsplit=1)` restricted to what the handler uses: `none`
when the split yields at most one part, otherwise the first token and the
remainder after the following whitespace run. -/
def splitMax1 (s : List Char) : Option (List Char × List Char) :=
  let s1 := s.dropWhile isPySpace
  let tok := s1.takeWhile (fun c => !isPySpace c)
  let r := (s1.dropWhile (fun c => !isPySpace c)).dropWhile isPySpace
  if tok.isEmpty || r.isEmpty then none else some (tok, r)

/-- `msg.lower().startswith('register')`. -/
def startsWithRegisterCI (m : List Char) : Bool :=
  listStartsWith (lowerList m) ['r', 'e', 'g', 'i', 's', 't', 'e', 'r']

/-- The `webhook` handler of `src/app.py` as a pure function: the body is
stripped, the registration branch is tried first, then the registry lookup,
then amount extraction (note the Python falsiness test `if not amount`), and
the stripped message itself is stored as the description.  The sqlite upsert is
modelled as always succeeding; the result is paired with the updated
registry. -/
def process (reg : Registry) (body sender : String) : ConversationResult × Registry :=
  if startsWithRegisterCI (pyStrip body).toList then
    match splitMax1 (pyStrip body).toList with
    | some (_, r) =>
        (ConversationResult.registration true (String.mk (pyStripList r)),
          upsert reg sender (String.mk (pyStripList r)))
    | none => (ConversationResult.registration false "", reg)
  else
    match reg sender with
    | none => (ConversationResult.unregistered, reg)
    | some partner =>
        match extract_amount (pyStrip body) with
        | none => (ConversationResult.parseError, reg)
        | some a =>
            if a = 0 then (ConversationResult.parseError, reg)
            else
              (ConversationResult.expense a (detect_category (pyStrip body)) (pyStrip body) partner,
                reg)

/-- A registry with a single registered partner, used in concrete runs. -/
def regAsha : Registry := fun p => if p = "+911" then some "Asha" else none

/-- The empty registry. -/
def regEmpty : Registry := fun _ => none

/-- Unfolding of `process` on the registration branch. -/
theorem process_register_branch (reg : Registry) (body sender : String)
    (h : startsWithRegisterCI (pyStrip body).toList = true) :
    process reg body sender =
      (match splitMax1 (pyStrip body).toList with
        | some (_, r) =>
            (ConversationResult.registration true (String.mk (pyStripList r)),
              upsert reg sender (String.mk (pyStripList r)))
        | none => (ConversationResult.registration false "", reg)) := by
  unfold process
  rw [h]
  exact if_pos rfl

/-- Unfolding of `process` on the non-registration branch. -/
theorem process_expense_branch (reg : Registry) (body sender : String)
    (h : startsWithRegisterCI (pyStrip body).toList = false) :
    process reg body sender =
      (match reg sender with
        | none => (ConversationResult.unregistered, reg)
        | some partner =>
            match extract_amount (pyStrip body) with
            | none => (ConversationResult.parseError, reg)
            | some a =>
                if a = 0 then (ConversationResult.parseError, reg)
                else
                  (ConversationResult.expense a (detect_category (pyStrip body)) (pyStrip body)
                    partner, reg)) := by
  unfold process
  rw [h]
  exact if_neg Bool.false_ne_true

/-- One rule appended after rules that already produced a value changes
nothing. -/
theorem tryPatterns_append (xs : List (Option NumGroup)) (y : Option NumGroup) (v : ℚ)
    (h : tryPatterns xs = some v) : tryPatterns (xs ++ [y]) = some v := by
  induction xs with
  | nil => simp [tryPatterns] at h
  | cons x rest ih =>
      cases x with
      | none =>
          rw [tryPatterns] at h
          simpa [tryPatterns] using ih h
      | some g =>
          rw [tryPatterns] at h
          rw [List.cons_append, tryPatterns]
          cases hc : floatOfGroup g with
          | none =>
              rw [hc] at h
              exact ih h
          | some w =>
              rw [hc] at h
              exact h

/-- C5: `extract_amount "₹5,000"`, `extract_amount "Rs.5000"`,
`extract_amount "5000 rs"` and `extract_amount "INR 5000"` each yield 5000
(thousands separators stripped, matching case-insensitive), and
`extract_amount "no numbers here"` yields absent. -/
theorem C5_extract_examples :
    extract_amount "₹5,000" = some 5000 ∧ extract_amount "Rs.5000" = some 5000 ∧
    extract_amount "5000 rs" = some 5000 ∧ extract_amount "INR 5000" = some 5000 ∧
    extract_amount "no numbers here" = none := by
  refine ⟨?_, ?_, ?_, ?_, ?_⟩ <;> decide

/-- C6: for every text, `detect_category` returns the earliest category in the
fixed priority order rent, travel, food, partner_loan, business_purchase,
client_acquisition whose keyword set has a case-insensitive substring match in
the text (`classifySpec`), and "uncategorized" when none matches; in
particular "Paid 5000 rent" is rent, "Client dinner meeting" is food, and
"xyz" is uncategorized. -/
theorem C6_classifier_priority :
    (∀ msg : String, detect_category msg = classifySpec msg) ∧
    detect_category "Paid 5000 rent" = "rent" ∧
    detect_category "Client dinner meeting" = "food" ∧
    detect_category "xyz" = "uncategorized" := by
  refine ⟨fun msg => rfl, ?_, ?_, ?_⟩ <;> decide

/-- C8: an unregistered sender's non-registration message yields the
Unregistered result for every message body, whatever amount it may contain,
and the registry is untouched. -/
theorem C8_unregistered_short_circuit (reg : Registry) (body sender : String)
    (h1 : startsWithRegisterCI (pyStrip body).toList = false)
    (h2 : reg sender = none) :
    process reg body sender = (ConversationResult.unregistered, reg) := by
  rw [process_expense_branch reg body sender h1, h2]

/-- C8 witness: an expense-shaped message with a recognizable amount from an
unregistered sender yields Unregistered. -/
theorem C8_witness :
    process regEmpty "Paid 5000 rent" "+1" = (ConversationResult.unregistered, regEmpty) :=
  C8_unregistered_short_circuit regEmpty "Paid 5000 rent" "+1" (by decide) rfl

/-- C9: a message whose trimmed text case-insensitively starts with "register"
is handled by the registration path for every registry state and sender, so
`process` returns a Registration result — never Expense or ParseError — even
for a registered sender whose text contains an amount. -/
theorem C9_register_exclusive (reg : Registry) (body sender : String)
    (h : startsWithRegisterCI (pyStrip body).toList = true) :
    ∃ b n, (process reg body sender).1 = ConversationResult.registration b n := by
  rw [process_register_branch reg body sender h]
  cases hs : splitMax1 (pyStrip body).toList with
  | none => exact ⟨false, "", rfl⟩
  | some p => exact ⟨true, String.mk (pyStripList p.2), rfl⟩

/-- C9 witness: a registered sender sending "register Bina 500" (which contains
a recognizable amount) still gets a Registration result. -/
theorem C9_witness :
    ∃ b n, (process regAsha "register Bina 500" "+911").1 = ConversationResult.registration b n :=
  C9_register_exclusive regAsha "register Bina 500" "+911" (by decide)

/-- C1 counterexample: on "rs 0" the extractor returns the value 0, yet a
registered sender gets a ParseError result, because the handler tests the
amount with Python falsiness (`if not amount`), not with absence. -/
theorem C1_cex :
    extract_amount "rs 0" = some 0 ∧
    (process regAsha "rs 0" "+911").1 = ConversationResult.parseError := by
  exact ⟨by decide, by decide⟩

/-- C1 (amended): for a registered sender and a non-registration message,
`process` returns ParseError exactly when the extractor returns absent or the
value 0; every nonzero extracted value yields the Expense result built from
the stripped message. -/
theorem C1_parse_error_iff (reg : Registry) (body sender name : String)
    (hreg : startsWithRegisterCI (pyStrip body).toList = false)
    (hlook : reg sender = some name) :
    ((process reg body sender).1 = ConversationResult.parseError ↔
      extract_amount (pyStrip body) = none ∨ extract_amount (pyStrip body) = some 0) ∧
    ∀ a : ℚ, extract_amount (pyStrip body) = some a → a ≠ 0 →
      (process reg body sender).1 =
        ConversationResult.expense a (detect_category (pyStrip body)) (pyStrip body) name := by
  rw [process_expense_branch reg body sender hreg, hlook]
  cases hx : extract_amount (pyStrip body) with
  | none => simp
  | some a =>
      dsimp only
      by_cases ha : a = 0
      · subst ha
        rw [if_pos rfl]
        refine ⟨by simp, ?_⟩
        intro a' ha' hne
        exact absurd (Option.some_injective ℚ ha').symm hne
      · rw [if_neg ha]
        refine ⟨by simp [ha], ?_⟩
        intro a' ha' hne
        rw [Option.some_injective ℚ ha']

/-- C1 witness: a registered sender sending "lunch rs 300" gets the Expense
result with amount 300, category food, and the message as description. -/
theorem C1_witness :
    (process regAsha "lunch rs 300" "+911").1 =
      ConversationResult.expense 300 "food" "lunch rs 300" "Asha" :=
  (C1_parse_error_iff regAsha "lunch rs 300" "+911" "Asha" (by decide) (by decide)).2
    300 (by decide) (by decide)

/-- C3 counterexample: the handler strips the body before processing, so a body
with surrounding whitespace is stored with a description that is not the
original input verbatim. -/
theorem C3_cex :
    (process regAsha " rs 500" "+911").1 =
      ConversationResult.expense 500 "uncategorized" "rs 500" "Asha" ∧
    ("rs 500" : String) ≠ " rs 500" := by
  exact ⟨by decide, by decide⟩

/-- C3 (amended): every Expense result produced by `process` carries as its
description the stripped input body — the full stripped message, hence the
input verbatim whenever the input carries no surrounding whitespace. -/
theorem C3_description_is_strip (reg : Registry) (body sender : String) (a : ℚ)
    (cat d p : String)
    (hres : (process reg body sender).1 = ConversationResult.expense a cat d p) :
    d = pyStrip body := by
  cases hb : startsWithRegisterCI (pyStrip body).toList with
  | true =>
      rw [process_register_branch reg body sender hb] at hres
      cases hs : splitMax1 (pyStrip body).toList with
      | none => rw [hs] at hres; exact absurd hres (by simp)
      | some pr => rw [hs] at hres; exact absurd hres (by simp)
  | false =>
      rw [process_expense_branch reg body sender hb] at hres
      cases hl : reg sender with
      | none => rw [hl] at hres; exact absurd hres (by simp)
      | some partner =>
          rw [hl] at hres
          cases hx : extract_amount (pyStrip body) with
          | none => rw [hx] at hres; exact absurd hres (by simp)
          | some a' =>
              rw [hx] at hres
              dsimp only at hres
              by_cases ha : a' = 0
              · rw [if_pos ha] at hres; exact absurd hres (by simp)
              · rw [if_neg ha] at hres
                simp only [ConversationResult.expense.injEq] at hres
                exact hres.2.2.1.symm

/-- C3 witness: for the body " rs 500" the stored description is the stripped
text. -/
theorem C3_witness : ("rs 500" : String) = pyStrip " rs 500" :=
  C3_description_is_strip regAsha " rs 500" "+911" 500 "uncategorized" "rs 500" "Asha" (by decide)

/-- C7 counterexample: "registerguy John" trimmed starts with "register"
case-insensitively and a name token follows, but the upserted name is "John" —
the remainder after the first whitespace-delimited token — not "guy John", the
remainder after the command word. -/
theorem C7_cex :
    (process regEmpty "registerguy John" "+1").1 = ConversationResult.registration true "John" ∧
    (process regEmpty "registerguy John" "+1").2 "+1" = some "John" ∧
    ("John" : String) ≠ "guy John" := by
  exact ⟨by decide, by decide, by decide⟩

/-- C7 (amended): when the trimmed message case-insensitively starts with
"register" and no second whitespace-separated token follows, `process` returns
Registration with success false and leaves the registry unchanged; when a name
token does follow, the remainder after the first whitespace-delimited token
(not after the literal command word), trimmed, is upserted as the sender's
display name. -/
theorem C7_registration (reg : Registry) (body sender : String)
    (h : startsWithRegisterCI (pyStrip body).toList = true) :
    (splitMax1 (pyStrip body).toList = none →
      process reg body sender = (ConversationResult.registration false "", reg)) ∧
    ∀ tok r, splitMax1 (pyStrip body).toList = some (tok, r) →
      process reg body sender =
        (ConversationResult.registration true (String.mk (pyStripList r)),
          upsert reg sender (String.mk (pyStripList r))) := by
  rw [process_register_branch reg body sender h]
  constructor
  · intro hs; rw [hs]
  · intro tok r hs; rw [hs]

/-- C7 witness: "register" alone fails registration and does not change the
registry. -/
theorem C7_witness :
    process regEmpty "register" "+1" = (ConversationResult.registration false "", regEmpty) :=
  (C7_registration regEmpty "register" "+1" (by decide)).1 (by decide)

/-- The bare-number rule never captures a fraction: its grammar is `[\d,]+`
only. -/
theorem stepBare_frac_none (prev : Option Char) (s : List Char) (g : NumGroup)
    (h : stepBare prev s = some g) : g.frac = none := by
  cases s with
  | nil => simp [stepBare] at h
  | cons c t =>
      unfold stepBare at h
      dsimp only at h
      split at h
      · split at h
        · exact (congrArg NumGroup.frac (Option.some_injective _ h).symm)
        · simp at h
      · simp at h

/-- Searching with the bare-number rule never captures a fraction. -/
theorem searchG_bare_frac_none :
    ∀ (l : List Char) (prev : Option Char) (g : NumGroup),
      searchG stepBare prev l = some g → g.frac = none := by
  intro l
  induction l with
  | nil =>
      intro prev g h
      rw [searchG] at h
      exact stepBare_frac_none prev [] g h
  | cons c rest ih =>
      intro prev g h
      rw [searchG] at h
      cases hs : stepBare prev (c :: rest) with
      | none =>
          rw [hs] at h
          exact ih (some c) g h
      | some g0 =>
          rw [hs] at h
          dsimp only at h
          have hg : g0 = g := Option.some_injective _ h
          subst hg
          exact stepBare_frac_none prev (c :: rest) g0 hs

/-- C2 counterexample: with no currency marker, "paid 12.50" falls through to
the bare-number rule, whose grammar has no fraction part: the result is 12,
not the 12.50 the claim's grammar would produce. -/
theorem C2_cex :
    extract_amount "paid 12.50" = some 12 ∧ (12 : ℚ) ≠ 25 / 2 := by
  exact ⟨by decide, by norm_num⟩

/-- C2 (amended): when no currency-marked rule matches anywhere in the text,
`extract_amount` falls back to the first standalone digit sequence with
optional thousands separators but no decimal fraction: the returned value is
the integer value of the matched fragment with separators stripped, and the
fallback capture never contains a fraction. -/
theorem C2_bare_fallback (msg : String)
    (h1 : searchLC stepSym (lowerList msg.toList) = none)
    (h2 : searchLC stepRs (lowerList msg.toList) = none)
    (h3 : searchLC stepInr (lowerList msg.toList) = none)
    (h4 : searchLC stepSuffix (lowerList msg.toList) = none) :
    extract_amount msg = (searchLC stepBare (lowerList msg.toList)).bind floatOfGroup ∧
    ∀ g, searchLC stepBare (lowerList msg.toList) = some g → g.frac = none := by
  constructor
  · unfold extract_amount
    rw [h1, h2, h3, h4]
    cases hb : searchLC stepBare (lowerList msg.toList) with
    | none => simp [tryPatterns]
    | some g =>
        cases hc : floatOfGroup g with
        | none => simp [tryPatterns, hc]
        | some v => simp [tryPatterns, hc]
  · intro g hg
    exact searchG_bare_frac_none (lowerList msg.toList) none g hg

/-- C2 witness: "paid 1,234 ok" has no currency-marked match, so the bare rule
produces the comma-stripped value. -/
theorem C2_witness :
    extract_amount "paid 1,234 ok" =
      (searchLC stepBare (lowerList (String.toList "paid 1,234 ok"))).bind floatOfGroup :=
  (C2_bare_fallback "paid 1,234 ok" (by decide) (by decide) (by decide) (by decide)).1

/-- C4 counterexample: the text "x, rs, then 42 and rs 500" contains the
currency-marked number 500 (the fragment "rs 500" matches the Rs rule) and the
unrelated bare number 42, yet `extract_amount` returns 42: the leftmost Rs-rule
match captures only a comma, its conversion fails, and the whole rule is
skipped. -/
theorem C4_cex :
    extract_amount "x, rs, then 42 and rs 500" = some 42 ∧
    stepRs none (String.toList "rs 500") = some ⟨String.toList "500", none⟩ ∧
    floatOfGroup ⟨String.toList "500", none⟩ = some 500 ∧
    containsSub (String.toList "rs 500")
      (lowerList (String.toList "x, rs, then 42 and rs 500")) = true ∧
    (42 : ℚ) ≠ 500 := by
  exact ⟨by decide, by decide, by decide, by decide, by decide⟩

/-- C4 (amended): whenever the currency-marked rules (symbol, Rs, INR, suffix)
produce a value — the first of them whose leftmost match converts to a number —
`extract_amount` returns exactly that value, regardless of any bare number
anywhere in the text; the bare fallback is never consulted. -/
theorem C4_currency_over_bare (msg : String) (v : ℚ)
    (h : currencyExtract msg = some v) :
    extract_amount msg = some v := by
  unfold currencyExtract at h
  unfold extract_amount
  exact tryPatterns_append _ _ v h

/-- C4 witness: "Room 12, paid rs 500" yields the currency-marked 500, not the
earlier bare 12. -/
theorem C4_witness : extract_amount "Room 12, paid rs 500" = some 500 :=
  C4_currency_over_bare "Room 12, paid rs 500" 500 (by decide)

/-- C10 counterexample: "₹7 hours 30" contains the letters "rs" (inside
"hours") followed by whitespace and digits, so the claim requires 30; but the
currency-symbol rule is tried first and wins, and `extract_amount` returns
7. -/
theorem C10_cex :
    extract_amount "₹7 hours 30" = some 7 ∧
    containsSub (String.toList "rs 30") (lowerList (String.toList "₹7 hours 30")) = true ∧
    stepRs none (String.toList "rs 30") = some ⟨String.toList "30", none⟩ ∧
    (7 : ℚ) ≠ 30 := by
  exact ⟨by decide, by decide, by decide, by decide⟩

/-- C10 (amended): when the currency-symbol rule matches nowhere, and the
leftmost occurrence of "rs" (no word boundary — also inside a longer word such
as "hours") followed by an optional period, optional whitespace and digits
yields the value v, then `extract_amount` returns v, taking priority over any
bare number appearing earlier in the text. -/
theorem C10_rs_no_boundary (msg : String) (v : ℚ)
    (h1 : searchLC stepSym (lowerList msg.toList) = none)
    (h2 : (searchLC stepRs (lowerList msg.toList)).bind floatOfGroup = some v) :
    extract_amount msg = some v := by
  unfold extract_amount
  rw [h1]
  cases hb : searchLC stepRs (lowerList msg.toList) with
  | none => rw [hb] at h2; simp at h2
  | some g =>
      rw [hb] at h2
      simp only [Option.some_bind] at h2
      simp only [tryPatterns, h2]

/-- C10 witness: "2 hours 30" has a bare 2 first, yet the Rs rule matching
inside "hours" wins and yields 30. -/
theorem C10_witness : extract_amount "2 hours 30" = some 30 :=
  C10_rs_no_boundary "2 hours 30" 30 (by decide) (by decide)

end ExpenseApp
